import Mathlib

/-
Verification development for the Re-Feed repository (uchicago-library/Re-Feed).

Shallow embedding of the data model (src/models.py), the query and change
tracking layer (src/functions.py), the ingestion pipeline and the HTTP
handlers (src/app.py), and the optional override module
(src/custom_functions.py). Database tables are modelled as Lean lists, the
SQLAlchemy session as explicit state passing on a record type DB, and the
autoincrement primary keys as counters carried in that state. Timestamps are
modelled abstractly as integers.
-/

namespace ReFeed

/-- One row of the feed_entry table (src/models.py, AbstractFeedEntry and
FeedEntry). Fields follow the columns: id (integer primary key), feed_id
(unique string, the dedup key alias sourceId), title, link, published_at,
description. -/
structure FeedEntry where
  id : Nat
  feed_id : String
  title : String
  link : String
  published_at : Int
  description : String
  deriving DecidableEq

/-- One row of the tag table (src/models.py, class Tag). -/
structure Tag where
  id : Nat
  name : String
  deriving DecidableEq

/-- One row of the feed_entry_tag association table (src/models.py,
class FeedEntryTag). -/
structure FeedEntryTag where
  id : Nat
  feed_entry_id : Nat
  tag_id : Nat
  deriving DecidableEq

/-- One row of the changes table (src/models.py, class Changes). -/
structure Changes where
  id : Nat
  updated : Int
  deriving DecidableEq

/-- The persistent store: the four tables plus the autoincrement counters
for the three tables whose rows are created by the application. Lists hold
rows in insertion order. -/
structure DB where
  entries : List FeedEntry
  tags : List Tag
  links : List FeedEntryTag
  changes : List Changes
  nextEntryId : Nat
  nextTagId : Nat
  nextLinkId : Nat
  deriving DecidableEq

/-- A freshly created database (db.create_all on an empty SQLite file).
SQLite autoincrement ids start at 1. -/
def emptyDB : DB := ⟨[], [], [], [], 1, 1, 1⟩

/-- Python html.escape applied to one character, with the default
quote=True (src/app.py line 89 calls html.escape with one argument).
It rewrites the five markup characters to entity references and leaves
every other character unchanged. -/
def escapeCharL (c : Char) : List Char :=
  if c = '&' then "&amp;".data
  else if c = '<' then "&lt;".data
  else if c = '>' then "&gt;".data
  else if c = '\x22' then "&quot;".data
  else if c = '\x27' then "&#x27;".data
  else [c]

/-- Python html.escape over a whole string: each character is rewritten
independently (the sequential str.replace calls of the CPython
implementation never rewrite text produced by an earlier replacement,
so the per character map is equivalent). -/
def htmlEscapeL : List Char → List Char
  | [] => []
  | c :: cs => escapeCharL c ++ htmlEscapeL cs

/-- Python html.escape on String. -/
def htmlEscape (s : String) : String := ⟨htmlEscapeL s.data⟩

/-- Modelled from the spec (section 4.1): ftfy.fix_text, a third party
library call, repairs mojibake (mis-decoded byte sequences) without
altering already-correct text; with unescape_html=False it also leaves
HTML entity references untouched. Every string considered in this
development is already-correct text, on which fix_text is the identity. -/
def fix_text (s : String) : String := s

/-- The title normalization applied by the RSS ingestion path:
html.escape(fix_text(entry.title, unescape_html=False))
(src/app.py line 89 and src/custom_functions.py line 33). -/
def normalize (s : String) : String := htmlEscape (fix_text s)

/-- Python str.lower, modelled for the ASCII range the application
handles (tag names are typed ASCII labels). -/
def pyLower (s : String) : String := String.mk (s.data.map Char.toLower)

/-- Python str.strip: whitespace removed from both ends. -/
def pyStrip (s : String) : String :=
  String.mk
    (((s.data.dropWhile Char.isWhitespace).reverse.dropWhile
        Char.isWhitespace).reverse)

/-- SQLAlchemy ilike, used as Tag.name.ilike(pattern)
(src/app.py line 265, src/functions.py line 83). ILIKE on a pattern free
of the wildcard metacharacters percent and underscore is case-insensitive
equality; every tag name and pattern in this development is metacharacter
free, so ILIKE is modelled as comparison of lower-cased strings. -/
def ilike (name pat : String) : Bool := pyLower name == pyLower pat

/-- Python truthiness of the optional tag_name argument
(src/functions.py line 82, the guard if tag_name). None and the empty
string are falsy, every other string is truthy. -/
def pyTruthyStr : Option String → Bool
  | none => false
  | some s => !(s == "")

/-- Python truthiness of the optional limit argument
(src/functions.py lines 90 and 98, the guard if limit). None and 0 are
falsy; the Flask int route converter only produces nonnegative values. -/
def pyTruthyNat : Option Nat → Bool
  | none => false
  | some n => !(n == 0)

/-- The SQL ordering relation of order_by(FeedEntry.id.desc())
(src/functions.py lines 88 and 97): a row comes before another when its
id is the larger. -/
def idDescRel (a b : FeedEntry) : Prop := b.id ≤ a.id

instance : DecidableRel idDescRel := fun a b => Nat.decLe b.id a.id

instance : IsTotal FeedEntry idDescRel := ⟨fun a b => Nat.le_total b.id a.id⟩

instance : IsTrans FeedEntry idDescRel :=
  ⟨fun _ _ _ h1 h2 => Nat.le_trans h2 h1⟩

/-- The ascending counterpart, used to speak about the identity-ascending
order of the store. -/
def idAscRel (a b : FeedEntry) : Prop := a.id ≤ b.id

instance : DecidableRel idAscRel := fun a b => Nat.decLe a.id b.id

instance : IsTotal FeedEntry idAscRel := ⟨fun a b => Nat.le_total a.id b.id⟩

instance : IsTrans FeedEntry idAscRel :=
  ⟨fun _ _ _ h1 h2 => Nat.le_trans h1 h2⟩

/-- order_by(FeedEntry.id.desc()): the rows sorted by id descending. -/
def orderByIdDesc (es : List FeedEntry) : List FeedEntry :=
  es.insertionSort idDescRel

/-- The identity-ascending presentation of a row set (the order the spec
calls oldest first). -/
def orderByIdAsc (es : List FeedEntry) : List FeedEntry :=
  es.insertionSort idAscRel

/-- query.limit(limit) guarded by if limit (src/functions.py lines 90-91
and 98-99): applied only when limit is truthy. -/
def applyLimit (limit : Option Nat) (es : List FeedEntry) : List FeedEntry :=
  if pyTruthyNat limit then es.take (limit.getD 0) else es

/-- Result of the query layer: the returned rows, plus whether the
diagnostic print for a missing tag was emitted (src/functions.py
line 94). -/
structure QueryResult where
  entries : List FeedEntry
  tagNotFoundLogged : Bool
  deriving DecidableEq

/-- get_entries_by_tag_or_not (src/functions.py lines 66-101). When
tag_name is truthy, the first tag whose name matches case-insensitively
is looked up; if none exists the function prints a diagnostic and returns
the empty list; otherwise the entries joined to that tag through
FeedEntryTag are returned ordered by id descending and truncated by a
truthy limit. When tag_name is falsy all entries are returned in the same
order with the same truncation. -/
def get_entries_by_tag_or_not (st : DB) (tag_name : Option String)
    (limit : Option Nat) : QueryResult :=
  if pyTruthyStr tag_name then
    match st.tags.find? (fun t => ilike t.name (tag_name.getD "")) with
    | some tag =>
        ⟨applyLimit limit (orderByIdDesc
          ((st.links.filter (fun l => l.tag_id == tag.id)).filterMap
            (fun l => st.entries.find? (fun e => e.id == l.feed_entry_id)))),
         false⟩
    | none => ⟨[], true⟩
  else
    ⟨applyLimit limit (orderByIdDesc st.entries), false⟩

/-- Result of the change tracker touch: the record returned to the caller,
the state after the commit or rollback, and whether the error branch
printed its message (src/functions.py line 29). -/
structure TouchResult where
  record : Changes
  st : DB
  errorLogged : Bool
  deriving DecidableEq

/-- update_or_create_change (src/functions.py lines 7-31). Looks up the
Changes row by id; when present its updated field is set to the current
time, otherwise a new row is added. The commit may fail (modelled by the
commitOk flag): failure is caught, the session rolled back (the state is
left unchanged) and the message printed, and in every case the in-memory
record is returned. -/
def update_or_create_change (now : Int) (commitOk : Bool) (st : DB)
    (record_id : Nat) : TouchResult :=
  match st.changes.find? (fun c => c.id == record_id) with
  | some c =>
      let c2 : Changes := { c with updated := now }
      let st2 : DB :=
        { st with changes :=
            st.changes.map (fun x => if x.id == record_id then c2 else x) }
      ⟨c2, if commitOk then st2 else st, !commitOk⟩
  | none =>
      let c2 : Changes := ⟨record_id, now⟩
      let st2 : DB := { st with changes := st.changes ++ [c2] }
      ⟨c2, if commitOk then st2 else st, !commitOk⟩

/-- get_change_by_id (src/functions.py lines 34-47). -/
def get_change_by_id (st : DB) (record_id : Nat) : Option Changes :=
  st.changes.find? (fun c => c.id == record_id)

/-- rfc_3339_date (src/functions.py lines 50-63): the isoformat rendering
of the timestamp with a literal Z appended. Timestamps are abstract
integers here, rendered through their decimal representation. -/
def rfc_3339_date (date : Int) : String := toString date ++ "Z"

/-- Result of a tag mutation handler: the state after the request, the
number of update_or_create_change invocations the request performed, and
whether the request succeeded (redirect) or rendered the error page. -/
structure MutationResult where
  st : DB
  touches : Nat
  ok : Bool
  deriving DecidableEq

/-- tag_entry (src/app.py lines 245-281). The form value is trimmed and
lower-cased; the entry is fetched by primary key; when found, the tag is
looked up case-insensitively and created when absent, the association is
appended unless already present, and update_or_create_change(1) is
invoked; when the entry is missing the error page is rendered and nothing
is touched. -/
def tag_entry (now : Int) (touchOk : Bool) (st : DB) (entry_id : Nat)
    (raw : String) : MutationResult :=
  let tag_name := pyLower (pyStrip raw)
  match st.entries.find? (fun e => e.id == entry_id) with
  | none => ⟨st, 0, false⟩
  | some entry =>
      let pair : Tag × DB :=
        match st.tags.find? (fun t => ilike t.name tag_name) with
        | some t => (t, st)
        | none =>
            let t : Tag := ⟨st.nextTagId, tag_name⟩
            (t, { st with tags := st.tags ++ [t],
                          nextTagId := st.nextTagId + 1 })
      let tag := pair.1
      let st1 := pair.2
      let st2 : DB :=
        if st1.links.any
            (fun l => l.feed_entry_id == entry.id && l.tag_id == tag.id)
        then st1
        else { st1 with
                 links := st1.links ++ [⟨st1.nextLinkId, entry.id, tag.id⟩],
                 nextLinkId := st1.nextLinkId + 1 }
      ⟨(update_or_create_change now touchOk st2 1).st, 1, true⟩

/-- delete_tag (src/app.py lines 284-320). Entry and tag are fetched by
primary key; when both exist and the association is present it is
removed and update_or_create_change(1) is invoked; otherwise an error
page is rendered and nothing is touched. -/
def delete_tag (now : Int) (touchOk : Bool) (st : DB) (entry_id : Nat)
    (tag_id : Nat) : MutationResult :=
  match st.entries.find? (fun e => e.id == entry_id),
        st.tags.find? (fun t => t.id == tag_id) with
  | some entry, some tag =>
      if st.links.any
          (fun l => l.feed_entry_id == entry.id && l.tag_id == tag.id) then
        let st1 : DB :=
          { st with links := (st.links.filter
              (fun l => !(l.feed_entry_id == entry.id && l.tag_id == tag.id))) }
        ⟨(update_or_create_change now touchOk st1 1).st, 1, true⟩
      else ⟨st, 0, false⟩
  | _, _ => ⟨st, 0, false⟩

/-- One parsed item of the external RSS document, as feedparser presents
it to src/app.py lines 85-97: the entry id, title, link, the published
timestamp (already parsed by strptime against the configured pattern;
modelled as the parsed value), and the description. -/
structure RssItem where
  id : String
  title : String
  link : String
  published : Int
  description : String
  deriving DecidableEq

/-- One object of the external JSON document data array
(src/app.py lines 129-143): id, title, url, date_utc (parsed by strptime;
modelled as the parsed value), description. -/
structure JsonItem where
  id : String
  title : String
  url : String
  date_utc : Int
  description : String
  deriving DecidableEq

/-- The existence pre-check shared by the ingestion loops:
FeedEntry.query.filter_by(feed_id=...).first() is not None
(src/app.py lines 86 and 130, src/custom_functions.py line 30). -/
def hasFeedId (st : DB) (fid : String) : Bool :=
  (st.entries.find? (fun e => e.feed_id == fid)).isSome

/-- The loop body shared by the three ingestion variants: skip the item
when an entry with its feed id already exists, otherwise append the
constructed row (db.session.add) with the next autoincrement id. -/
def dedupStep (getId : α → String) (build : DB → α → FeedEntry)
    (st : DB) (item : α) : DB :=
  if hasFeedId st (getId item) then st
  else { st with entries := st.entries ++ [build st item],
                 nextEntryId := st.nextEntryId + 1 }

/-- The FeedEntry constructed by fetch_rss_feed in src/app.py lines 90-98:
title normalized by html.escape of fix_text, feed_id from entry.id, link,
published_at from strptime of entry.published, description. -/
def rssBuild (st : DB) (item : RssItem) : FeedEntry :=
  ⟨st.nextEntryId, item.id, normalize item.title, item.link,
   item.published, item.description⟩

/-- fetch_rss_feed (src/app.py lines 65-101): the parsed entry list is
reversed in place, then each item is dedup-checked and added. -/
def fetch_rss_feed (st : DB) (items : List RssItem) : DB :=
  items.reverse.foldl (dedupStep RssItem.id rssBuild) st

/-- The FeedEntry constructed by fetch_json_feed in src/app.py
lines 135-143: title through fix_text only (no html.escape on this path),
feed_id from the item id, link from url, published_at from strptime of
date_utc, description. -/
def jsonBuild (st : DB) (item : JsonItem) : FeedEntry :=
  ⟨st.nextEntryId, item.id, fix_text item.title, item.url,
   item.date_utc, item.description⟩

/-- fetch_json_feed (src/app.py lines 104-150), successful fetch path:
the data array is reversed in place, then each item is dedup-checked and
added. -/
def fetch_json_feed (st : DB) (items : List JsonItem) : DB :=
  items.reverse.foldl (dedupStep JsonItem.id jsonBuild) st

/-- The FeedEntry constructed by the override fetch_rss_feed in
src/custom_functions.py lines 33-39: no published_at argument is given,
so the column default datetime.utcnow applies (modelled by the now
parameter). -/
def customRssBuild (now : Int) (st : DB) (item : RssItem) : FeedEntry :=
  ⟨st.nextEntryId, item.id, normalize item.title, item.link,
   now, item.description⟩

/-- The override fetch_rss_feed (src/custom_functions.py lines 10-42),
which replaces the app module function through the star import at
src/app.py line 472: the entry list is iterated in the order the source
returned it, without the reversal. -/
def custom_fetch_rss_feed (now : Int) (st : DB) (items : List RssItem) :
    DB :=
  items.foldl (dedupStep RssItem.id (customRssBuild now)) st

/-- The tags of one entry as the ORM relationship resolves them:
the association rows of the entry, each joined to its tag row. -/
def entryTags (st : DB) (e : FeedEntry) : List Tag :=
  (st.links.filter (fun l => l.feed_entry_id == e.id)).filterMap
    (fun l => st.tags.find? (fun t => t.id == l.tag_id))

/-- Result of a feed render: the serialized body, the state after the
request, and the number of update_or_create_change invocations the
request performed. -/
structure RenderResult where
  body : String
  st : DB
  touches : Nat
  deriving DecidableEq

/-- The item block the RSS renderer emits for one entry
(src/app.py lines 348-355). -/
def rssItemStr (st : DB) (e : FeedEntry) : String :=
  "<item>\n<title>" ++ e.title ++ "</title>\n<link>" ++ e.link ++
  "</link>\n<description>" ++ e.description ++ "</description>\n" ++
  String.join ((entryTags st e).map
    (fun t => "<category term=\x22" ++ t.name ++ "\x22/>\n")) ++
  "</item>\n"

/-- The sequence of entries the RSS renderer's for loop visits, in
emission order: src/app.py line 342 binds entries to the query result
and line 348 iterates it directly. -/
def rssEmission (st : DB) (tag_name : Option String) (limit : Option Nat) :
    List FeedEntry :=
  (get_entries_by_tag_or_not st tag_name limit).entries

/-- get_feed_rss (src/app.py lines 323-357). -/
def get_feed_rss (st : DB) (tag_name : Option String) (limit : Option Nat) :
    RenderResult :=
  ⟨"<?xml version=\x221.0\x22 encoding=\x22utf-8\x22 ?>\n" ++
   "<rss version=\x222.0\x22>\n<channel>\n" ++
   String.join ((rssEmission st tag_name limit).map (rssItemStr st)) ++
   "</channel>\n</rss>", st, 0⟩

/-- The sequence of entries the Atom renderer's for loop visits, in
emission order: src/app.py line 386 binds entries to the query result,
evaluated after the lazy Change initialization of lines 380-383, and
line 394 iterates it directly. -/
def atomEmission (now : Int) (touchOk : Bool) (st : DB)
    (tag_name : Option String) (limit : Option Nat) : List FeedEntry :=
  match get_change_by_id st 1 with
  | some _ => (get_entries_by_tag_or_not st tag_name limit).entries
  | none =>
      (get_entries_by_tag_or_not
        (update_or_create_change now touchOk st 1).st tag_name limit).entries

/-- The entry block the Atom renderer emits for one entry
(src/app.py lines 394-402). -/
def atomEntryStr (st : DB) (e : FeedEntry) : String :=
  "<entry>\n<title type=\x22html\x22>" ++ e.title ++ "</title>\n<id>" ++
  toString e.id ++ "</id>\n<link href=\x22" ++ e.link ++
  "\x22 rel=\x22alternate\x22 type=\x22text/html\x22/>\n" ++
  "<content type=\x22html\x22><![CDATA[ " ++ e.description ++
  " ]]></content>\n" ++
  String.join ((entryTags st e).map
    (fun t => "<category term=\x22" ++ t.name ++ "\x22/>\n")) ++
  "</entry>\n"

/-- get_feed_atom (src/app.py lines 360-404). The updated stamp is read
from the Changes row with id 1; when that row is absent the AttributeError
branch creates it through update_or_create_change(1). The entry list is
then queried and serialized. -/
def get_feed_atom (now : Int) (touchOk : Bool)
    (feed_title base_url : String) (st : DB) (tag_name : Option String)
    (limit : Option Nat) : RenderResult :=
  match get_change_by_id st 1 with
  | some c =>
      ⟨"<?xml version=\x221.0\x22 encoding=\x22utf-8\x22 ?>\n" ++
       "<feed xmlns=\x22http://www.w3.org/2005/Atom\x22>\n" ++
       "<title type=\x22html\x22>" ++ feed_title ++ "</title>\n<id>" ++
       base_url ++ "</id>\n<updated>" ++ rfc_3339_date c.updated ++
       "</updated>\n" ++
       String.join ((atomEmission now touchOk st tag_name limit).map
         (atomEntryStr st)) ++
       "</feed>\n", st, 0⟩
  | none =>
      let tr := update_or_create_change now touchOk st 1
      ⟨"<?xml version=\x221.0\x22 encoding=\x22utf-8\x22 ?>\n" ++
       "<feed xmlns=\x22http://www.w3.org/2005/Atom\x22>\n" ++
       "<title type=\x22html\x22>" ++ feed_title ++ "</title>\n<id>" ++
       base_url ++ "</id>\n<updated>" ++ rfc_3339_date tr.record.updated ++
       "</updated>\n" ++
       String.join ((atomEmission now touchOk st tag_name limit).map
         (atomEntryStr tr.st)) ++
       "</feed>\n", tr.st, 1⟩

/-- One element of the JSON feed body (src/app.py lines 429-434). -/
structure JsonEntryData where
  title : String
  link : String
  description : String
  tags : List String
  deriving DecidableEq

/-- The sequence of entries the JSON renderer's for loop visits, in
emission order: src/app.py line 425 binds entries to the query result and
line 428 iterates it directly. -/
def jsonEmission (st : DB) (tag_name : Option String) (limit : Option Nat) :
    List FeedEntry :=
  (get_entries_by_tag_or_not st tag_name limit).entries

/-- Result of the JSON render: the serialized list, the state after the
request and the number of update_or_create_change invocations. -/
structure JsonRenderResult where
  body : List JsonEntryData
  st : DB
  touches : Nat
  deriving DecidableEq

/-- get_feed_json (src/app.py lines 407-437). -/
def get_feed_json (st : DB) (tag_name : Option String)
    (limit : Option Nat) : JsonRenderResult :=
  ⟨(jsonEmission st tag_name limit).map
     (fun e => ⟨e.title, e.link, e.description,
                (entryTags st e).map Tag.name⟩),
   st, 0⟩

/-- The states reachable from a fresh database by the operations of the
application: the two ingestion variants and the custom override, the tag
mutation handlers, the change tracker touch, and the Atom render (the
only read endpoint that can write, through its lazy Change creation). -/
inductive Reachable : DB → Prop
  | empty : Reachable emptyDB
  | rss (st : DB) (items : List RssItem) :
      Reachable st → Reachable (fetch_rss_feed st items)
  | json (st : DB) (items : List JsonItem) :
      Reachable st → Reachable (fetch_json_feed st items)
  | custom (now : Int) (st : DB) (items : List RssItem) :
      Reachable st → Reachable (custom_fetch_rss_feed now st items)
  | tagMut (now : Int) (touchOk : Bool) (st : DB) (i : Nat) (r : String) :
      Reachable st → Reachable (tag_entry now touchOk st i r).st
  | tagDel (now : Int) (touchOk : Bool) (st : DB) (i t : Nat) :
      Reachable st → Reachable (delete_tag now touchOk st i t).st
  | touch (now : Int) (commitOk : Bool) (st : DB) (rid : Nat) :
      Reachable st → Reachable (update_or_create_change now commitOk st rid).st
  | atom (now : Int) (touchOk : Bool) (ft bu : String) (st : DB)
      (tn : Option String) (lim : Option Nat) :
      Reachable st → Reachable (get_feed_atom now touchOk ft bu st tn lim).st

/-- A store holding two entries, ids 1 and 2, used as a concrete state in
counterexamples and witnesses. -/
def exEntryA : FeedEntry := ⟨1, "a", "A", "la", 0, ""⟩

/-- Second concrete entry, id 2. -/
def exEntryB : FeedEntry := ⟨2, "b", "B", "lb", 0, ""⟩

/-- Concrete store with the two entries above and nothing else. -/
def exTwoSt : DB := ⟨[exEntryA, exEntryB], [], [], [], 3, 1, 1⟩

/-- Concrete RSS items standing for the sources A, B, C of the spec
(original publish times 1 < 2 < 3). -/
def itemA : RssItem := ⟨"a", "A", "la", 1, "da"⟩

/-- Concrete RSS item B. -/
def itemB : RssItem := ⟨"b", "B", "lb", 2, "db"⟩

/-- Concrete RSS item C. -/
def itemC : RssItem := ⟨"c", "C", "lc", 3, "dc"⟩

/-- Concrete JSON items mirroring the RSS ones. -/
def jitemA : JsonItem := ⟨"a", "A", "la", 1, "da"⟩

/-- Concrete JSON item B. -/
def jitemB : JsonItem := ⟨"b", "B", "lb", 2, "db"⟩

/-- Concrete JSON item C. -/
def jitemC : JsonItem := ⟨"c", "C", "lc", 3, "dc"⟩

/-- A store holding one untagged entry, used by tag mutation witnesses. -/
def exOneSt : DB := ⟨[exEntryA], [], [], [], 2, 1, 1⟩

theorem update_or_create_change_tables (now : Int) (ok : Bool) (st : DB)
    (rid : Nat) :
    (update_or_create_change now ok st rid).st.entries = st.entries ∧
    (update_or_create_change now ok st rid).st.tags = st.tags ∧
    (update_or_create_change now ok st rid).st.links = st.links := by
  unfold update_or_create_change
  cases h : st.changes.find? (fun c => c.id == rid) <;> cases ok <;> simp

theorem get_entries_eq_of_tables {a b : DB} (h1 : a.entries = b.entries)
    (h2 : a.tags = b.tags) (h3 : a.links = b.links) (tn : Option String)
    (lim : Option Nat) :
    get_entries_by_tag_or_not a tn lim = get_entries_by_tag_or_not b tn lim := by
  unfold get_entries_by_tag_or_not
  rw [h1, h2, h3]

/-- C5: for every fixed underlying state and every (tagName, limit)
argument pair, the RSS, Atom, and JSON renders produced from that state
present the same entries in identical relative order: the three emission
sequences coincide. -/
theorem C5_render_order_parity (now : Int) (touchOk : Bool) (st : DB)
    (tn : Option String) (lim : Option Nat) :
    rssEmission st tn lim = atomEmission now touchOk st tn lim ∧
    rssEmission st tn lim = jsonEmission st tn lim := by
  constructor
  · unfold rssEmission atomEmission
    cases h : get_change_by_id st 1 with
    | some c => rfl
    | none =>
        have ht := update_or_create_change_tables now touchOk st 1
        rw [get_entries_eq_of_tables ht.1 ht.2.1 ht.2.2]
  · rfl

/-- C10: both filter guards in get_entries_by_tag_or_not test Python
truthiness rather than presence: the empty string behaves like no tag
filter, and a limit of 0 applies no truncation. -/
theorem C10_truthiness_guards (st : DB) (tn : Option String)
    (lim : Option Nat) :
    get_entries_by_tag_or_not st (some "") lim =
      get_entries_by_tag_or_not st none lim ∧
    get_entries_by_tag_or_not st tn (some 0) =
      get_entries_by_tag_or_not st tn none := by
  constructor
  · rfl
  · unfold get_entries_by_tag_or_not
    cases hb : pyTruthyStr tn with
    | false => simp [applyLimit, pyTruthyNat]
    | true =>
        simp only [hb, if_true]
        cases hf : tn.getD "" with
        | _ => cases st.tags.find? (fun t => ilike t.name (tn.getD "")) <;>
                 simp [applyLimit, pyTruthyNat]

/-- C9: querying by a nonempty tag name that matches no existing tag
returns the empty sequence and logs the diagnostic; the query layer is a
total function, it never raises. -/
theorem C9_missing_tag_empty (st : DB) (tn : String) (lim : Option Nat)
    (h1 : tn ≠ "") (h2 : st.tags.find? (fun t => ilike t.name tn) = none) :
    get_entries_by_tag_or_not st (some tn) lim = ⟨[], true⟩ := by
  unfold get_entries_by_tag_or_not
  have hb : pyTruthyStr (some tn) = true := by
    simp [pyTruthyStr, h1]
  simp [hb, h2]

/-- Witness for C9 at a concrete input: the fresh store and the name
news. -/
theorem C9_missing_tag_empty_witness :
    get_entries_by_tag_or_not emptyDB (some "news") none = ⟨[], true⟩ :=
  C9_missing_tag_empty emptyDB "news" none (by decide) (by rfl)

/-- C7: update_or_create_change always returns the in-memory record with
the fresh timestamp and the requested id; when the commit fails the state
is rolled back unchanged and the failure is logged; the operation is a
total function, it never raises. -/
theorem C7_touch_never_raises (now : Int) (ok : Bool) (st : DB)
    (rid : Nat) :
    (update_or_create_change now ok st rid).record.updated = now ∧
    (update_or_create_change now ok st rid).record.id = rid ∧
    (update_or_create_change now false st rid).st = st ∧
    (update_or_create_change now false st rid).errorLogged = true := by
  unfold update_or_create_change
  cases h : st.changes.find? (fun c => c.id == rid) with
  | none => cases ok <;> simp
  | some c =>
      have hc : c.id = rid := by
        have hp := List.find?_some h
        simpa using hp
      cases ok <;> simp [hc]

/-- C1 (amended): each of the three renderers emits entries exactly in
the Query Layer order, which is identity descending (newest first); no
reversal is applied, so the all-entries output order is descending
identity, and that order is sorted by the descending relation. -/
theorem C1_renderers_emit_descending (now : Int) (touchOk : Bool)
    (st : DB) :
    rssEmission st none none = orderByIdDesc st.entries ∧
    atomEmission now touchOk st none none = orderByIdDesc st.entries ∧
    jsonEmission st none none = orderByIdDesc st.entries ∧
    List.Sorted idDescRel (orderByIdDesc st.entries) := by
  have hall : ∀ d : DB, (get_entries_by_tag_or_not d none none).entries =
      orderByIdDesc d.entries := by
    intro d
    simp [get_entries_by_tag_or_not, pyTruthyStr, applyLimit, pyTruthyNat]
  refine ⟨hall st, ?_, hall st, ?_⟩
  · unfold atomEmission
    cases h : get_change_by_id st 1 with
    | some c => exact hall st
    | none =>
        have ht := update_or_create_change_tables now touchOk st 1
        dsimp only
        rw [hall _, ht.1]
  · unfold orderByIdDesc
    exact List.sorted_insertionSort idDescRel st.entries

/-- C1 counterexample: on the concrete two-entry store the RSS renderer
emits [id 2, id 1], which is neither the reverse of the Query Layer
result nor the ascending identity order the claim asserts. -/
theorem C1_counterexample :
    (rssEmission exTwoSt none none).map FeedEntry.id = [2, 1] ∧
    rssEmission exTwoSt none none ≠
      ((get_entries_by_tag_or_not exTwoSt none none).entries).reverse ∧
    rssEmission exTwoSt none none ≠ orderByIdAsc exTwoSt.entries := by
  decide

theorem htmlEscapeL_clean (l : List Char)
    (h : ∀ c ∈ l, escapeCharL c = [c]) : htmlEscapeL l = l := by
  induction l with
  | nil => rfl
  | cons c cs ih =>
      have hc := h c (by simp)
      have hcs := ih (fun x hx => h x (by simp [hx]))
      simp [htmlEscapeL, hc, hcs]

/-- C2 (amended): the title normalizer is idempotent exactly on strings
free of the characters html.escape rewrites; on such strings a second
application is a no-op. In general it is not idempotent: escaping an
already escaped string escapes the introduced ampersands again. -/
theorem C2_normalize_idempotent_on_clean (s : String)
    (h : ∀ c ∈ s.data, escapeCharL c = [c]) :
    normalize (normalize s) = normalize s := by
  have hs : normalize s = s := by
    unfold normalize htmlEscape fix_text
    rw [htmlEscapeL_clean s.data h]
  rw [hs]
  exact hs

/-- Witness for the amended C2 at the concrete clean string abc. -/
theorem C2_normalize_idempotent_on_clean_witness :
    normalize (normalize "abc") = normalize "abc" :=
  C2_normalize_idempotent_on_clean "abc" (by decide)

/-- C2 counterexample: on the one-character string containing an
ampersand the normalizer is not idempotent, since html.escape rewrites
the ampersand of the entity reference produced by the first pass. -/
theorem C2_counterexample :
    normalize (normalize "&") ≠ normalize "&" := by decide

theorem hasFeedId_false_of (st : DB) (f : String)
    (h : ∀ e ∈ st.entries, e.feed_id ≠ f) : hasFeedId st f = false := by
  unfold hasFeedId
  have : st.entries.find? (fun e => e.feed_id == f) = none := by
    rw [List.find?_eq_none]
    intro e he
    simp [h e he]
  simp [this]

theorem dedupStep_new {α : Type} (getId : α → String)
    (build : DB → α → FeedEntry) (st : DB) (i : α)
    (h : hasFeedId st (getId i) = false) :
    dedupStep getId build st i =
      { st with entries := st.entries ++ [build st i],
                nextEntryId := st.nextEntryId + 1 } := by
  simp [dedupStep, h]

/-- C3 (amended): for the app module RSS variant and the JSON variant,
ingestion of a source list returned newest-first [C, B, A] with pairwise
distinct source ids into an empty store reverses the list before
processing, so the identity-ascending order of the store afterwards is
A, B, C. The override variant in custom_functions.py, which replaces the
app module RSS variant through the star import, does not reverse, so its
run yields C, B, A instead. -/
theorem C3_chronological_insertion (A B C : RssItem)
    (jA jB jC : JsonItem)
    (hab : A.id ≠ B.id) (hac : A.id ≠ C.id) (hbc : B.id ≠ C.id)
    (hjab : jA.id ≠ jB.id) (hjac : jA.id ≠ jC.id) (hjbc : jB.id ≠ jC.id) :
    (orderByIdAsc (fetch_rss_feed emptyDB [C, B, A]).entries).map
        FeedEntry.feed_id = [A.id, B.id, C.id] ∧
    (orderByIdAsc (fetch_json_feed emptyDB [jC, jB, jA]).entries).map
        FeedEntry.feed_id = [jA.id, jB.id, jC.id] := by
  constructor
  · have fab : (A.id == B.id) = false := beq_eq_false_iff_ne.mpr hab
    have fac : (A.id == C.id) = false := beq_eq_false_iff_ne.mpr hac
    have fbc : (B.id == C.id) = false := beq_eq_false_iff_ne.mpr hbc
    simp [fetch_rss_feed, dedupStep, hasFeedId, emptyDB, rssBuild,
      List.find?, fab, fac, fbc, orderByIdAsc, List.insertionSort,
      List.orderedInsert, idAscRel]
  · have fab : (jA.id == jB.id) = false := beq_eq_false_iff_ne.mpr hjab
    have fac : (jA.id == jC.id) = false := beq_eq_false_iff_ne.mpr hjac
    have fbc : (jB.id == jC.id) = false := beq_eq_false_iff_ne.mpr hjbc
    simp [fetch_json_feed, dedupStep, hasFeedId, emptyDB, jsonBuild,
      List.find?, fab, fac, fbc, orderByIdAsc, List.insertionSort,
      List.orderedInsert, idAscRel]

/-- Witness for the amended C3 at the concrete items a, b, c. -/
theorem C3_chronological_insertion_witness :
    (orderByIdAsc (fetch_rss_feed emptyDB [itemC, itemB, itemA]).entries).map
        FeedEntry.feed_id = [itemA.id, itemB.id, itemC.id] ∧
    (orderByIdAsc
        (fetch_json_feed emptyDB [jitemC, jitemB, jitemA]).entries).map
        FeedEntry.feed_id = [jitemA.id, jitemB.id, jitemC.id] :=
  C3_chronological_insertion itemA itemB itemC jitemA jitemB jitemC
    (by decide) (by decide) (by decide) (by decide) (by decide) (by decide)

/-- C3 counterexample: the active RSS ingestion (the custom_functions
override) run on the newest-first list [c, b, a] into the empty store
leaves the identity-ascending order c, b, a, not a, b, c. -/
theorem C3_counterexample :
    (orderByIdAsc
        (custom_fetch_rss_feed 0 emptyDB [itemC, itemB, itemA]).entries).map
        FeedEntry.feed_id = ["c", "b", "a"] ∧
    (orderByIdAsc
        (custom_fetch_rss_feed 0 emptyDB [itemC, itemB, itemA]).entries).map
        FeedEntry.feed_id ≠ ["a", "b", "c"] := by decide

theorem hasFeedId_dedupStep {α : Type} (getId : α → String)
    (build : DB → α → FeedEntry) (st : DB) (i : α) (f : String)
    (h : hasFeedId st f = true) :
    hasFeedId (dedupStep getId build st i) f = true := by
  unfold dedupStep
  split
  · exact h
  · unfold hasFeedId at h ⊢
    cases ho : st.entries.find? (fun e => e.feed_id == f) with
    | none => rw [ho] at h; simp at h
    | some v => simp [List.find?_append, ho]

theorem hasFeedId_foldl {α : Type} (getId : α → String)
    (build : DB → α → FeedEntry) (l : List α) (st : DB) (f : String)
    (h : hasFeedId st f = true) :
    hasFeedId (l.foldl (dedupStep getId build) st) f = true := by
  induction l generalizing st with
  | nil => exact h
  | cons i l ih =>
      exact ih _ (hasFeedId_dedupStep getId build st i f h)

theorem hasFeedId_after_step {α : Type} (getId : α → String)
    (build : DB → α → FeedEntry)
    (hb : ∀ st i, (build st i).feed_id = getId i) (st : DB) (i : α) :
    hasFeedId (dedupStep getId build st i) (getId i) = true := by
  unfold dedupStep
  split
  · next h => exact h
  · unfold hasFeedId
    cases ho : st.entries.find? (fun e => e.feed_id == getId i) with
    | none => simp [List.find?_append, ho, List.find?, hb]
    | some v => simp [List.find?_append, ho]

theorem foldl_all_present {α : Type} (getId : α → String)
    (build : DB → α → FeedEntry)
    (hb : ∀ st i, (build st i).feed_id = getId i) (l : List α) (st : DB) :
    ∀ i ∈ l, hasFeedId (l.foldl (dedupStep getId build) st) (getId i) = true := by
  induction l generalizing st with
  | nil => simp
  | cons j l ih =>
      intro i hi
      simp only [List.foldl_cons]
      rcases List.mem_cons.mp hi with rfl | hm
      · exact hasFeedId_foldl getId build l _ _
          (hasFeedId_after_step getId build hb st i)
      · exact ih _ i hm

theorem foldl_skip_all {α : Type} (getId : α → String)
    (build : DB → α → FeedEntry) (l : List α) (st : DB)
    (h : ∀ i ∈ l, hasFeedId st (getId i) = true) :
    l.foldl (dedupStep getId build) st = st := by
  induction l with
  | nil => rfl
  | cons j l ih =>
      have hj : dedupStep getId build st j = st := by
        unfold dedupStep
        simp [h j (by simp)]
      simp only [List.foldl_cons, hj]
      exact ih (fun i hi => h i (by simp [hi]))

theorem nodup_dedupStep {α : Type} (getId : α → String)
    (build : DB → α → FeedEntry)
    (hb : ∀ st i, (build st i).feed_id = getId i) (st : DB) (i : α)
    (h : (st.entries.map FeedEntry.feed_id).Nodup) :
    ((dedupStep getId build st i).entries.map FeedEntry.feed_id).Nodup := by
  unfold dedupStep
  split
  · exact h
  · next hc =>
      have hnone : st.entries.find? (fun e => e.feed_id == getId i) = none := by
        unfold hasFeedId at hc
        cases ho : st.entries.find? (fun e => e.feed_id == getId i) with
        | none => rfl
        | some v => rw [ho] at hc; simp at hc
      have hno : ∀ e ∈ st.entries, e.feed_id ≠ getId i := by
        intro e he
        have := List.find?_eq_none.mp hnone e he
        simpa using this
      simp only [List.map_append, List.map_cons, List.map_nil]
      rw [List.nodup_append]
      refine ⟨h, by simp, ?_⟩
      intro x hx
      simp only [hb, List.mem_singleton]
      intro hxeq
      rcases List.mem_map.mp hx with ⟨e, he, rfl⟩
      exact hno e he hxeq

theorem nodup_foldl {α : Type} (getId : α → String)
    (build : DB → α → FeedEntry)
    (hb : ∀ st i, (build st i).feed_id = getId i) (l : List α) (st : DB)
    (h : (st.entries.map FeedEntry.feed_id).Nodup) :
    ((l.foldl (dedupStep getId build) st).entries.map FeedEntry.feed_id).Nodup := by
  induction l generalizing st with
  | nil => exact h
  | cons j l ih =>
      exact ih _ (nodup_dedupStep getId build hb st j h)

theorem tag_entry_entries (now : Int) (ok : Bool) (st : DB) (i : Nat)
    (r : String) : (tag_entry now ok st i r).st.entries = st.entries := by
  unfold tag_entry
  cases hf : st.entries.find? (fun e => e.id == i) with
  | none => rfl
  | some e =>
      dsimp only
      cases hg : st.tags.find? (fun t => ilike t.name (pyLower (pyStrip r))) <;>
        dsimp only <;> split <;>
        rw [(update_or_create_change_tables now ok _ 1).1]

theorem delete_tag_entries (now : Int) (ok : Bool) (st : DB) (i t : Nat) :
    (delete_tag now ok st i t).st.entries = st.entries := by
  unfold delete_tag
  cases hf : st.entries.find? (fun e => e.id == i) with
  | none => rfl
  | some e =>
      cases hg : st.tags.find? (fun g => g.id == t) with
      | none => rfl
      | some g =>
          dsimp only
          split
          · rw [(update_or_create_change_tables now ok _ 1).1]
          · rfl

theorem get_feed_atom_entries (now : Int) (ok : Bool) (ft bu : String)
    (st : DB) (tn : Option String) (lim : Option Nat) :
    (get_feed_atom now ok ft bu st tn lim).st.entries = st.entries := by
  unfold get_feed_atom
  cases h : get_change_by_id st 1 with
  | none =>
      dsimp only
      rw [(update_or_create_change_tables now ok st 1).1]
  | some c => rfl

/-- C4: ingestion is idempotent. A second run of any ingestion variant
over an unchanged item list leaves the store exactly as the first run
left it (so it inserts zero new entries), and at every reachable state
the stored feed ids (sourceId values) are pairwise distinct. -/
theorem C4_idempotent_ingestion :
    (∀ st items,
        fetch_rss_feed (fetch_rss_feed st items) items =
          fetch_rss_feed st items) ∧
    (∀ st items,
        fetch_json_feed (fetch_json_feed st items) items =
          fetch_json_feed st items) ∧
    (∀ now1 now2 st items,
        custom_fetch_rss_feed now2 (custom_fetch_rss_feed now1 st items)
          items = custom_fetch_rss_feed now1 st items) ∧
    (∀ st, Reachable st → (st.entries.map FeedEntry.feed_id).Nodup) := by
  have hbr : ∀ st i, (rssBuild st i).feed_id = RssItem.id i := fun _ _ => rfl
  have hbj : ∀ st i, (jsonBuild st i).feed_id = JsonItem.id i := fun _ _ => rfl
  have hbc : ∀ now st i, (customRssBuild now st i).feed_id = RssItem.id i :=
    fun _ _ _ => rfl
  refine ⟨?_, ?_, ?_, ?_⟩
  · intro st items
    exact foldl_skip_all _ _ _ _
      (fun i hi => foldl_all_present _ _ hbr items.reverse st i hi)
  · intro st items
    exact foldl_skip_all _ _ _ _
      (fun i hi => foldl_all_present _ _ hbj items.reverse st i hi)
  · intro now1 now2 st items
    exact foldl_skip_all _ _ _ _
      (fun i hi => foldl_all_present _ _ (hbc now1) items st i hi)
  · intro st h
    induction h with
    | empty => simp [emptyDB]
    | rss st items hr ih => exact nodup_foldl _ _ hbr items.reverse st ih
    | json st items hr ih => exact nodup_foldl _ _ hbj items.reverse st ih
    | custom now st items hr ih => exact nodup_foldl _ _ (hbc now) items st ih
    | tagMut now ok st i r hr ih => rw [tag_entry_entries]; exact ih
    | tagDel now ok st i t hr ih => rw [delete_tag_entries]; exact ih
    | touch now ok st rid hr ih =>
        rw [(update_or_create_change_tables now ok st rid).1]; exact ih
    | atom now ok ft bu st tn lim hr ih =>
        rw [get_feed_atom_entries]; exact ih

/-- Witness for C4 at a concrete input: a JSON ingestion run from the
fresh store is reachable and its stored feed ids are pairwise distinct,
and a second identical run is the identity. -/
theorem C4_idempotent_ingestion_witness :
    ((fetch_json_feed emptyDB [jitemC, jitemB, jitemA]).entries.map
        FeedEntry.feed_id).Nodup ∧
    fetch_json_feed (fetch_json_feed emptyDB [jitemC, jitemB, jitemA])
        [jitemC, jitemB, jitemA] =
      fetch_json_feed emptyDB [jitemC, jitemB, jitemA] :=
  ⟨C4_idempotent_ingestion.2.2.2 _
      (Reachable.json emptyDB [jitemC, jitemB, jitemA] Reachable.empty),
   C4_idempotent_ingestion.2.1 emptyDB [jitemC, jitemB, jitemA]⟩

theorem dedupStep_changes {α : Type} (getId : α → String)
    (build : DB → α → FeedEntry) (st : DB) (i : α) :
    (dedupStep getId build st i).changes = st.changes := by
  unfold dedupStep
  split <;> rfl

theorem foldl_dedup_changes {α : Type} (getId : α → String)
    (build : DB → α → FeedEntry) (l : List α) (st : DB) :
    (l.foldl (dedupStep getId build) st).changes = st.changes := by
  induction l generalizing st with
  | nil => rfl
  | cons j l ih =>
      simp only [List.foldl_cons]
      rw [ih, dedupStep_changes]

/-- C6 (amended): update_or_create_change(1) is invoked exactly once per
tag_entry request that finds its entry, even when the tag was already
attached and no association is mutated; exactly once per delete_tag
request that finds entry, tag and association; additionally once by the
Atom renderer when no Changes row with id 1 exists yet (lazy creation);
and never by the ingestion variants or the RSS and JSON renderers, so
ingestion never updates the Change record. -/
theorem C6_touch_accounting :
    (∀ now ok st i r, (tag_entry now ok st i r).touches =
        if (st.entries.find? (fun e => e.id == i)).isSome then 1 else 0) ∧
    (∀ now ok st i t, (delete_tag now ok st i t).touches =
        match st.entries.find? (fun e => e.id == i),
              st.tags.find? (fun g => g.id == t) with
        | some e, some g =>
            if st.links.any
                (fun l => l.feed_entry_id == e.id && l.tag_id == g.id)
            then 1 else 0
        | _, _ => 0) ∧
    (∀ st items, (fetch_rss_feed st items).changes = st.changes) ∧
    (∀ st items, (fetch_json_feed st items).changes = st.changes) ∧
    (∀ now st items,
        (custom_fetch_rss_feed now st items).changes = st.changes) ∧
    (∀ now ok ft bu st tn lim,
        (get_feed_atom now ok ft bu st tn lim).touches =
          if (get_change_by_id st 1).isSome then 0 else 1) ∧
    (∀ st tn lim, (get_feed_rss st tn lim).touches = 0) ∧
    (∀ st tn lim, (get_feed_json st tn lim).touches = 0) := by
  refine ⟨?_, ?_, ?_, ?_, ?_, ?_, fun _ _ _ => rfl, fun _ _ _ => rfl⟩
  · intro now ok st i r
    unfold tag_entry
    cases hf : st.entries.find? (fun e => e.id == i) <;> simp
  · intro now ok st i t
    unfold delete_tag
    cases hf : st.entries.find? (fun e => e.id == i) with
    | none => simp
    | some e =>
        cases hg : st.tags.find? (fun g => g.id == t) with
        | none => simp
        | some g =>
            dsimp only
            split <;> simp
  · intro st items
    exact foldl_dedup_changes _ _ items.reverse st
  · intro st items
    exact foldl_dedup_changes _ _ items.reverse st
  · intro now st items
    exact foldl_dedup_changes _ _ items st
  · intro now ok ft bu st tn lim
    unfold get_feed_atom
    cases h : get_change_by_id st 1 <;> simp

/-- C6 counterexample: the Atom render on the fresh store, a request that
performs no tag mutation at all (the tag and link tables are untouched),
still invokes update_or_create_change once and creates the Changes row;
and a repeated attach of an already attached tag, which mutates no link,
also invokes it. -/
theorem C6_counterexample :
    (get_feed_atom 0 true "t" "u" emptyDB none none).touches = 1 ∧
    (get_feed_atom 0 true "t" "u" emptyDB none none).st.tags =
      emptyDB.tags ∧
    (get_feed_atom 0 true "t" "u" emptyDB none none).st.links =
      emptyDB.links ∧
    (tag_entry 0 true (tag_entry 0 true exOneSt 1 "go").st 1 "go").touches
      = 1 ∧
    (tag_entry 0 true (tag_entry 0 true exOneSt 1 "go").st 1 "go").st.links
      = (tag_entry 0 true exOneSt 1 "go").st.links := by
  refine ⟨rfl, rfl, rfl, ?_, ?_⟩ <;> decide

theorem tag_entry_fresh (now : Int) (ok : Bool) (S : DB) (i : Nat)
    (r : String) (e : FeedEntry)
    (hfind : S.entries.find? (fun x => x.id == i) = some e)
    (hnotag : S.tags.find?
        (fun t => ilike t.name (pyLower (pyStrip r))) = none)
    (hany : S.links.any
        (fun l => l.feed_entry_id == e.id && l.tag_id == S.nextTagId)
        = false) :
    (tag_entry now ok S i r).st =
      (update_or_create_change now ok
        { S with tags := S.tags ++ [⟨S.nextTagId, pyLower (pyStrip r)⟩],
                 nextTagId := S.nextTagId + 1,
                 links := S.links ++ [⟨S.nextLinkId, e.id, S.nextTagId⟩],
                 nextLinkId := S.nextLinkId + 1 } 1).st := by
  unfold tag_entry
  simp only [hfind, hnotag]
  simp [hany]

theorem tag_entry_noop (now : Int) (ok : Bool) (S : DB) (i : Nat)
    (r : String) (e : FeedEntry) (g : Tag)
    (hfind : S.entries.find? (fun x => x.id == i) = some e)
    (htag : S.tags.find?
        (fun t => ilike t.name (pyLower (pyStrip r))) = some g)
    (hlink : S.links.any
        (fun l => l.feed_entry_id == e.id && l.tag_id == g.id) = true) :
    (tag_entry now ok S i r).st = (update_or_create_change now ok S 1).st := by
  unfold tag_entry
  simp only [hfind, htag]
  simp [hlink]

/-- C8: tag identity is case-insensitive. From a state in which the entry
exists, no tag matches go case-insensitively, and no association row
references the fresh tag id, attaching Go (trimmed and lower-cased on
input) creates exactly one Tag row, named go; the subsequent attach of go
is a no-op on the tag and link tables; and afterwards exactly one
association row joins the entry to the new tag. -/
theorem C8_case_insensitive_tag (now1 now2 : Int) (ok1 ok2 : Bool)
    (st : DB) (i : Nat) (e : FeedEntry)
    (hfind : st.entries.find? (fun x => x.id == i) = some e)
    (hnotag : st.tags.find? (fun t => ilike t.name "go") = none)
    (hfresh : ∀ l ∈ st.links, l.tag_id ≠ st.nextTagId) :
    (tag_entry now1 ok1 st i "Go").st.tags =
      st.tags ++ [⟨st.nextTagId, "go"⟩] ∧
    (tag_entry now2 ok2 (tag_entry now1 ok1 st i "Go").st i "go").st.tags =
      (tag_entry now1 ok1 st i "Go").st.tags ∧
    (tag_entry now2 ok2 (tag_entry now1 ok1 st i "Go").st i "go").st.links =
      (tag_entry now1 ok1 st i "Go").st.links ∧
    ((tag_entry now2 ok2 (tag_entry now1 ok1 st i "Go").st i
        "go").st.links.filter
      (fun l => l.feed_entry_id == i && l.tag_id == st.nextTagId)).length
      = 1 := by
  have hGo : pyLower (pyStrip "Go") = "go" := by decide
  have hgo : pyLower (pyStrip "go") = "go" := by decide
  have he_id : e.id = i := by simpa using List.find?_some hfind
  have hnotag1 : st.tags.find?
      (fun t => ilike t.name (pyLower (pyStrip "Go"))) = none := by
    rw [hGo]; exact hnotag
  have hany : st.links.any
      (fun l => l.feed_entry_id == e.id && l.tag_id == st.nextTagId)
      = false := by
    rw [List.any_eq_false]
    intro l hl
    simp [hfresh l hl]
  have h1 := tag_entry_fresh now1 ok1 st i "Go" e hfind hnotag1 hany
  have h1tags : (tag_entry now1 ok1 st i "Go").st.tags =
      st.tags ++ [(⟨st.nextTagId, "go"⟩ : Tag)] := by
    rw [h1, (update_or_create_change_tables now1 ok1 _ 1).2.1]
    simp [hGo]
  have h1links : (tag_entry now1 ok1 st i "Go").st.links =
      st.links ++ [(⟨st.nextLinkId, e.id, st.nextTagId⟩ : FeedEntryTag)] := by
    rw [h1, (update_or_create_change_tables now1 ok1 _ 1).2.2]
  have h1entries : (tag_entry now1 ok1 st i "Go").st.entries = st.entries :=
    tag_entry_entries now1 ok1 st i "Go"
  have hfind2 : (tag_entry now1 ok1 st i "Go").st.entries.find?
      (fun x => x.id == i) = some e := by
    rw [h1entries]; exact hfind
  have hilike_go : ilike "go" "go" = true := by decide
  have htagsfind : (tag_entry now1 ok1 st i "Go").st.tags.find?
      (fun t => ilike t.name (pyLower (pyStrip "go"))) =
      some ⟨st.nextTagId, "go"⟩ := by
    rw [hgo, h1tags, List.find?_append, hnotag]
    simp [List.find?, hilike_go]
  have hany2 : (tag_entry now1 ok1 st i "Go").st.links.any
      (fun l => l.feed_entry_id == e.id &&
        l.tag_id == (⟨st.nextTagId, "go"⟩ : Tag).id) = true := by
    rw [h1links]
    simp
  have h2 := tag_entry_noop now2 ok2 (tag_entry now1 ok1 st i "Go").st i
    "go" e ⟨st.nextTagId, "go"⟩ hfind2 htagsfind hany2
  have c2tags : (tag_entry now2 ok2 (tag_entry now1 ok1 st i "Go").st i
      "go").st.tags = (tag_entry now1 ok1 st i "Go").st.tags := by
    rw [h2, (update_or_create_change_tables now2 ok2 _ 1).2.1]
  have c2links : (tag_entry now2 ok2 (tag_entry now1 ok1 st i "Go").st i
      "go").st.links = (tag_entry now1 ok1 st i "Go").st.links := by
    rw [h2, (update_or_create_change_tables now2 ok2 _ 1).2.2]
  refine ⟨h1tags, c2tags, c2links, ?_⟩
  rw [c2links, h1links, List.filter_append]
  have hnil : st.links.filter
      (fun l => l.feed_entry_id == i && l.tag_id == st.nextTagId) = [] := by
    rw [List.filter_eq_nil_iff]
    intro l hl
    simp [hfresh l hl]
  rw [hnil]
  simp [he_id]

/-- Witness for C8 at a concrete input: the one-entry store, entry 1. -/
theorem C8_case_insensitive_tag_witness :
    (tag_entry 0 true exOneSt 1 "Go").st.tags =
      exOneSt.tags ++ [⟨exOneSt.nextTagId, "go"⟩] ∧
    (tag_entry 0 true (tag_entry 0 true exOneSt 1 "Go").st 1 "go").st.tags =
      (tag_entry 0 true exOneSt 1 "Go").st.tags ∧
    (tag_entry 0 true (tag_entry 0 true exOneSt 1 "Go").st 1 "go").st.links =
      (tag_entry 0 true exOneSt 1 "Go").st.links ∧
    ((tag_entry 0 true (tag_entry 0 true exOneSt 1 "Go").st 1
        "go").st.links.filter
      (fun l => l.feed_entry_id == 1 && l.tag_id == exOneSt.nextTagId)).length
      = 1 :=
  C8_case_insensitive_tag 0 0 true true exOneSt 1 exEntryA (by decide)
    (by decide) (by intro l hl; simp [exOneSt] at hl)

end ReFeed
